import Mathlib

/-!
Verification of the touch-ownership arbitration core of a window-based
input-dispatch pipeline (`TouchState.cpp`).

A `TouchState` tracks, for one physical input device, which windows are
receiving which pointer contacts.  Pointer id sets (`std::bitset<MAX_POINTER_ID
+ 1>`, 32 bits) are embedded as `Finset (Fin 32)`; bitwise `|=`, `&= ~x` and
`^` become `∪`, `\` and symmetric difference.  Dispatch flags
(`ftl::Flags<InputTarget::Flags>`) are embedded as a `Finset` over an
enumeration of the flag bits.  Window handles (`sp<WindowInfoHandle>`) are
compared by object identity in the source; each handle is embedded as a record
carrying a per-instance identity key, the cross-instance binder token, the
capability bits read by this core, and the window name.
-/

set_option autoImplicit false

namespace TouchStateModel

/-- The `InputTarget::Flags` bits read or written by `TouchState.cpp`:
the mutually exclusive dispatch-mode subset plus the orthogonal
`FOREGROUND` bit. -/
inductive Flag where
  | FOREGROUND
  | DISPATCH_AS_IS
  | DISPATCH_AS_OUTSIDE
  | DISPATCH_AS_HOVER_ENTER
  | DISPATCH_AS_HOVER_EXIT
  | DISPATCH_AS_SLIPPERY_EXIT
  | DISPATCH_AS_SLIPPERY_ENTER
deriving DecidableEq

/-- Modelled from the spec: the explicit mask identifying the mutually
exclusive dispatch-mode subset of the flags (`InputTarget::DISPATCH_MASK`;
`InputTarget.h` is not among the sources, the spec lists the mode subset as
AS_IS, AS_OUTSIDE, SLIPPERY_ENTER, SLIPPERY_EXIT and the hover modes). -/
def DISPATCH_MASK : Finset Flag :=
  {Flag.DISPATCH_AS_IS, Flag.DISPATCH_AS_OUTSIDE, Flag.DISPATCH_AS_HOVER_ENTER,
   Flag.DISPATCH_AS_HOVER_EXIT, Flag.DISPATCH_AS_SLIPPERY_EXIT,
   Flag.DISPATCH_AS_SLIPPERY_ENTER}

/-- A pointer id: `0 ≤ id ≤ MAX_POINTER_ID = 31`. -/
abbrev PointerId := Fin 32

/-- A set of pointer ids (`std::bitset<MAX_POINTER_ID + 1>`). -/
abbrev PointerSet := Finset PointerId

/-- A window handle (`sp<gui::WindowInfoHandle>`): per-instance identity
(`instanceId` stands for the object address compared by `==` on `sp`),
the stable binder `token`, the capability bits `inputConfig.SLIPPERY` and
`inputConfig.IS_WALLPAPER`, and the window `name`. -/
structure WindowInfoHandle where
  instanceId : Nat
  token : Nat
  slippery : Bool
  isWallpaper : Bool
  name : String
deriving DecidableEq

/-- One entry of the touch state (`TouchedWindow`). -/
structure TouchedWindow where
  windowHandle : WindowInfoHandle
  targetFlags : Finset Flag
  pointerIds : PointerSet
  pilferedPointerIds : PointerSet
  hoveringPointers : Finset (Int × Int)
  firstDownTimeInTarget : Option Int
deriving DecidableEq

namespace TouchedWindow

/-- Modelled from the spec: `TouchedWindow::removeTouchingPointer` (the
`TouchedWindow` type is not among the sources); a direct set removal,
idempotent, removing an absent element is a no-op. -/
def removeTouchingPointer (w : TouchedWindow) (pointerId : PointerId) : TouchedWindow :=
  { w with pointerIds := w.pointerIds.erase pointerId }

/-- Modelled from the spec: `TouchedWindow::addHoveringPointer`, adding one
(device, pointer) pair to the hover set. -/
def addHoveringPointer (w : TouchedWindow) (deviceId pointerId : Int) : TouchedWindow :=
  { w with hoveringPointers := insert (deviceId, pointerId) w.hoveringPointers }

/-- Modelled from the spec: `TouchedWindow::removeHoveringPointer`, removing
one (device, pointer) pair from the hover set. -/
def removeHoveringPointer (w : TouchedWindow) (deviceId pointerId : Int) : TouchedWindow :=
  { w with hoveringPointers := w.hoveringPointers.erase (deviceId, pointerId) }

/-- Modelled from the spec: `TouchedWindow::clearHoveringPointers`. -/
def clearHoveringPointers (w : TouchedWindow) : TouchedWindow :=
  { w with hoveringPointers := ∅ }

/-- Modelled from the spec: `TouchedWindow::hasHoveringPointers`. -/
def hasHoveringPointers (w : TouchedWindow) : Prop :=
  w.hoveringPointers ≠ ∅

instance (w : TouchedWindow) : Decidable w.hasHoveringPointers := by
  unfold hasHoveringPointers; infer_instance

/-- Modelled from the spec: `TouchedWindow::hasHoveringPointer`. -/
def hasHoveringPointer (w : TouchedWindow) (deviceId pointerId : Int) : Prop :=
  (deviceId, pointerId) ∈ w.hoveringPointers

end TouchedWindow

/-- The per-device aggregate (`TouchState`). -/
structure TouchState where
  deviceId : Int
  source : Nat
  windows : List TouchedWindow
deriving DecidableEq

namespace TouchState

/-- `TouchState::reset`: `*this = TouchState()`. -/
def reset (_s : TouchState) : TouchState :=
  ⟨0, 0, []⟩

/-- `TouchState::removeTouchedPointer`: clears the pointer from every
entry's touching set. -/
def removeTouchedPointer (s : TouchState) (pointerId : PointerId) : TouchState :=
  { s with windows := s.windows.map (fun w => w.removeTouchingPointer pointerId) }

/-- The loop of `TouchState::removeTouchedPointerFromWindow`: update the
first entry whose handle matches, then return. -/
def removeTouchedPointerFromWindowGo (pointerId : PointerId) (windowHandle : WindowInfoHandle) :
    List TouchedWindow → List TouchedWindow
  | [] => []
  | w :: ws =>
    if w.windowHandle = windowHandle then w.removeTouchingPointer pointerId :: ws
    else w :: removeTouchedPointerFromWindowGo pointerId windowHandle ws

/-- `TouchState::removeTouchedPointerFromWindow`. -/
def removeTouchedPointerFromWindow (s : TouchState) (pointerId : PointerId)
    (windowHandle : WindowInfoHandle) : TouchState :=
  { s with windows := removeTouchedPointerFromWindowGo pointerId windowHandle s.windows }

/-- `TouchState::clearHoveringPointers`. -/
def clearHoveringPointers (s : TouchState) : TouchState :=
  { s with windows := s.windows.map TouchedWindow.clearHoveringPointers }

/-- `TouchState::clearWindowsWithoutPointers`: erase every entry with empty
touching set and no hovering pointers. -/
def clearWindowsWithoutPointers (s : TouchState) : TouchState :=
  { s with windows :=
      s.windows.filter (fun w => decide ¬(w.pointerIds = ∅ ∧ w.hoveringPointers = ∅)) }

/-- The fields of the `TouchedWindow` built on the insert path of
`TouchState::addOrUpdateWindow` (remaining fields default-constructed). -/
def newWindow (windowHandle : WindowInfoHandle) (targetFlags : Finset Flag)
    (pointerIds : PointerSet) (firstDownTimeInTarget : Option Int) : TouchedWindow :=
  ⟨windowHandle, targetFlags, pointerIds, ∅, ∅, firstDownTimeInTarget⟩

/-- The in-place update performed by `TouchState::addOrUpdateWindow` on the
matching entry: `targetFlags |= targetFlags`, then clear `DISPATCH_AS_IS`
when the new flags contain `DISPATCH_AS_SLIPPERY_EXIT`; `pointerIds |=
pointerIds`; adopt `firstDownTimeInTarget` only when previously absent. -/
def updateEntry (w : TouchedWindow) (targetFlags : Finset Flag) (pointerIds : PointerSet)
    (firstDownTimeInTarget : Option Int) : TouchedWindow :=
  { w with
    targetFlags :=
      if Flag.DISPATCH_AS_SLIPPERY_EXIT ∈ targetFlags then
        (w.targetFlags ∪ targetFlags).erase Flag.DISPATCH_AS_IS
      else w.targetFlags ∪ targetFlags,
    pointerIds := w.pointerIds ∪ pointerIds,
    firstDownTimeInTarget :=
      if w.firstDownTimeInTarget.isSome then w.firstDownTimeInTarget
      else firstDownTimeInTarget }

/-- The loop of `TouchState::addOrUpdateWindow`: update the first entry whose
handle matches (identity comparison, not token) and return; if none matches,
push a new entry at the back. -/
def addOrUpdateWindowGo (windowHandle : WindowInfoHandle) (targetFlags : Finset Flag)
    (pointerIds : PointerSet) (firstDownTimeInTarget : Option Int) :
    List TouchedWindow → List TouchedWindow
  | [] => [newWindow windowHandle targetFlags pointerIds firstDownTimeInTarget]
  | w :: ws =>
    if w.windowHandle = windowHandle then
      updateEntry w targetFlags pointerIds firstDownTimeInTarget :: ws
    else w :: addOrUpdateWindowGo windowHandle targetFlags pointerIds firstDownTimeInTarget ws

/-- `TouchState::addOrUpdateWindow`. -/
def addOrUpdateWindow (s : TouchState) (windowHandle : WindowInfoHandle)
    (targetFlags : Finset Flag) (pointerIds : PointerSet)
    (firstDownTimeInTarget : Option Int) : TouchState :=
  { s with windows :=
      addOrUpdateWindowGo windowHandle targetFlags pointerIds firstDownTimeInTarget s.windows }

/-- The loop of `TouchState::addHoveringPointerToWindow`: add the hover pair
to the first entry whose handle matches and return; if none matches, push a
new entry holding only that hover pair. -/
def addHoveringPointerToWindowGo (windowHandle : WindowInfoHandle)
    (hoveringDeviceId hoveringPointerId : Int) : List TouchedWindow → List TouchedWindow
  | [] => [TouchedWindow.addHoveringPointer
      ⟨windowHandle, ∅, ∅, ∅, ∅, none⟩ hoveringDeviceId hoveringPointerId]
  | w :: ws =>
    if w.windowHandle = windowHandle then
      w.addHoveringPointer hoveringDeviceId hoveringPointerId :: ws
    else w :: addHoveringPointerToWindowGo windowHandle hoveringDeviceId hoveringPointerId ws

/-- `TouchState::addHoveringPointerToWindow`. -/
def addHoveringPointerToWindow (s : TouchState) (windowHandle : WindowInfoHandle)
    (hoveringDeviceId hoveringPointerId : Int) : TouchState :=
  { s with windows :=
      addHoveringPointerToWindowGo windowHandle hoveringDeviceId hoveringPointerId s.windows }

/-- The loop of `TouchState::removeWindowByToken`: erase the first entry
whose token matches, then return. -/
def removeWindowByTokenGo (token : Nat) : List TouchedWindow → List TouchedWindow
  | [] => []
  | w :: ws =>
    if w.windowHandle.token = token then ws
    else w :: removeWindowByTokenGo token ws

/-- `TouchState::removeWindowByToken`. -/
def removeWindowByToken (s : TouchState) (token : Nat) : TouchState :=
  { s with windows := removeWindowByTokenGo token s.windows }

/-- The loop of `TouchState::filterNonAsIsTouchWindows`: keep an entry iff
its flags meet `DISPATCH_AS_IS | DISPATCH_AS_SLIPPERY_ENTER`, replacing the
kept entry's whole dispatch-mode subset by exactly `DISPATCH_AS_IS`;
erase every other entry. -/
def filterNonAsIsTouchWindowsGo : List TouchedWindow → List TouchedWindow
  | [] => []
  | w :: ws =>
    if Flag.DISPATCH_AS_IS ∈ w.targetFlags ∨ Flag.DISPATCH_AS_SLIPPERY_ENTER ∈ w.targetFlags then
      { w with targetFlags := (w.targetFlags \ DISPATCH_MASK) ∪ {Flag.DISPATCH_AS_IS} } ::
        filterNonAsIsTouchWindowsGo ws
    else filterNonAsIsTouchWindowsGo ws

/-- `TouchState::filterNonAsIsTouchWindows`. -/
def filterNonAsIsTouchWindows (s : TouchState) : TouchState :=
  { s with windows := filterNonAsIsTouchWindowsGo s.windows }

/-- `TouchState::cancelPointersForWindowsExcept`: early return when
`pointerIds` is empty; otherwise clear `pointerIds` from the touching set of
every entry whose token differs, then erase every entry whose touching set
is empty. -/
def cancelPointersForWindowsExcept (s : TouchState) (pointerIds : PointerSet)
    (token : Nat) : TouchState :=
  if pointerIds = ∅ then s
  else
    let updated := s.windows.map (fun w =>
      if w.windowHandle.token ≠ token then
        { w with pointerIds := w.pointerIds \ pointerIds }
      else w)
    { s with windows := updated.filter (fun w => decide (w.pointerIds ≠ ∅)) }

/-- The union of `pilferedPointerIds` over all entries, accumulated with
`|=` as in `TouchState::cancelPointersForNonPilferingWindows`. -/
def allPilferedPointerIds (s : TouchState) : PointerSet :=
  s.windows.foldl (fun acc w => acc ∪ w.pilferedPointerIds) ∅

/-- `TouchState::cancelPointersForNonPilferingWindows`: early return when no
pointer is pilfered; otherwise clear, from every entry's touching set, the
bits `pilferedPointerIds ^ allPilferedPointerIds` (symmetric difference),
then erase every entry whose touching set is empty. -/
def cancelPointersForNonPilferingWindows (s : TouchState) : TouchState :=
  let allPilfered := s.allPilferedPointerIds
  if allPilfered = ∅ then s
  else
    let updated := s.windows.map (fun w =>
      { w with pointerIds := w.pointerIds \
          ((w.pilferedPointerIds \ allPilfered) ∪ (allPilfered \ w.pilferedPointerIds)) })
    { s with windows := updated.filter (fun w => decide (w.pointerIds ≠ ∅)) }

/-- The loop of `TouchState::isSlippery`: scan for `FOREGROUND` entries,
returning `false` as soon as a second foreground entry or a non-slippery
foreground entry is seen; the accumulator records that one slippery
foreground entry has been seen. -/
def isSlipperyGo : List TouchedWindow → Bool → Bool
  | [], haveSlipperyForegroundWindow => haveSlipperyForegroundWindow
  | w :: ws, haveSlipperyForegroundWindow =>
    if Flag.FOREGROUND ∈ w.targetFlags then
      if haveSlipperyForegroundWindow || !w.windowHandle.slippery then false
      else isSlipperyGo ws true
    else isSlipperyGo ws haveSlipperyForegroundWindow

/-- `TouchState::isSlippery`. -/
def isSlippery (s : TouchState) : Bool :=
  isSlipperyGo s.windows false

/-- `TouchState::getTouchedWindow`: `std::find_if` by handle identity; the
`LOG_ALWAYS_FATAL_IF` branch (process abort with a diagnostic naming the
missing window) is embedded as the `Except.error` value carrying that
diagnostic. -/
def getTouchedWindow (s : TouchState) (windowHandle : WindowInfoHandle) :
    Except String TouchedWindow :=
  match s.windows.find? (fun w => decide (w.windowHandle = windowHandle)) with
  | some w => .ok w
  | none => .error ("Could not find " ++ windowHandle.name)

/-- `TouchState::isDown`: some entry has a non-empty touching set. -/
def isDown (s : TouchState) : Prop :=
  ∃ w ∈ s.windows, w.pointerIds ≠ ∅

/-- `TouchState::removeHoveringPointer`: remove the hover pair from every
entry, then erase every entry with empty touching set and no hovering
pointers. -/
def removeHoveringPointer (s : TouchState) (hoveringDeviceId hoveringPointerId : Int) :
    TouchState :=
  let updated := s.windows.map (fun w =>
    w.removeHoveringPointer hoveringDeviceId hoveringPointerId)
  { s with windows :=
      updated.filter (fun w => decide ¬(w.pointerIds = ∅ ∧ w.hoveringPointers = ∅)) }

end TouchState

/-! Concrete window handles and states used to instantiate the theorems. -/

/-- A concrete window handle. -/
def whA : WindowInfoHandle := ⟨0, 0, false, false, "A"⟩

/-- A concrete window handle distinct from `whA`. -/
def whB : WindowInfoHandle := ⟨1, 1, false, false, "B"⟩

/-- A concrete window handle distinct from `whA` and `whB`. -/
def whC : WindowInfoHandle := ⟨2, 2, false, false, "C"⟩

/-- A concrete window handle distinct from `whA`, `whB` and `whC`. -/
def whD : WindowInfoHandle := ⟨3, 3, false, false, "D"⟩

/-- A concrete slippery-capable window handle. -/
def whS : WindowInfoHandle := ⟨4, 4, true, false, "S"⟩

/-- Every field of an entry except its touching set; used to state frame
conditions. -/
def frameFields (w : TouchedWindow) :
    WindowInfoHandle × Finset Flag × PointerSet × Finset (Int × Int) × Option Int :=
  (w.windowHandle, w.targetFlags, w.pilferedPointerIds, w.hoveringPointers,
   w.firstDownTimeInTarget)

end TouchStateModel

namespace TouchStateModel

open TouchState Flag

/-! Helper lemmas about the loops of the operations. -/

/-- No two entries share the same window-handle identity. -/
def DistinctWindows (l : List TouchedWindow) : Prop :=
  l.Pairwise (fun a b => a.windowHandle ≠ b.windowHandle)

instance (l : List TouchedWindow) : Decidable (DistinctWindows l) := by
  unfold DistinctWindows; infer_instance

/-- Uniqueness invariant of a touch state (spec invariant 1). -/
def UniqueWindows (s : TouchState) : Prop :=
  DistinctWindows s.windows

instance (s : TouchState) : Decidable (UniqueWindows s) := by
  unfold UniqueWindows; infer_instance

theorem updateEntry_windowHandle (w : TouchedWindow) (f : Finset Flag) (p : PointerSet)
    (t : Option Int) : (updateEntry w f p t).windowHandle = w.windowHandle := rfl

theorem addOrUpdateWindowGo_of_forall_ne (wh : WindowInfoHandle) (f : Finset Flag)
    (p : PointerSet) (t : Option Int) (l : List TouchedWindow)
    (h : ∀ w ∈ l, w.windowHandle ≠ wh) :
    addOrUpdateWindowGo wh f p t l = l ++ [newWindow wh f p t] := by
  induction l with
  | nil => rfl
  | cons w ws ih =>
    have hw : w.windowHandle ≠ wh := h w (List.mem_cons_self w ws)
    simp only [addOrUpdateWindowGo, if_neg hw, List.cons_append, List.cons.injEq, true_and]
    exact ih (fun u hu => h u (List.mem_cons_of_mem w hu))

theorem addOrUpdateWindowGo_append (wh : WindowInfoHandle) (f : Finset Flag)
    (p : PointerSet) (t : Option Int) (pre : List TouchedWindow) (w : TouchedWindow)
    (post : List TouchedWindow) (hpre : ∀ u ∈ pre, u.windowHandle ≠ wh)
    (hw : w.windowHandle = wh) :
    addOrUpdateWindowGo wh f p t (pre ++ w :: post) = pre ++ updateEntry w f p t :: post := by
  induction pre with
  | nil => simp [addOrUpdateWindowGo, hw]
  | cons u us ih =>
    have hu : u.windowHandle ≠ wh := hpre u (List.mem_cons_self u us)
    simp only [List.cons_append, addOrUpdateWindowGo, if_neg hu, List.cons.injEq, true_and]
    exact ih (fun v hv => hpre v (List.mem_cons_of_mem u hv))

theorem handle_of_mem_addOrUpdateWindowGo (wh : WindowInfoHandle) (f : Finset Flag)
    (p : PointerSet) (t : Option Int) (l : List TouchedWindow) (b : TouchedWindow)
    (hb : b ∈ addOrUpdateWindowGo wh f p t l) :
    b.windowHandle = wh ∨ ∃ a ∈ l, b.windowHandle = a.windowHandle := by
  induction l with
  | nil =>
    simp only [addOrUpdateWindowGo, List.mem_singleton] at hb
    exact Or.inl (by rw [hb]; rfl)
  | cons w ws ih =>
    by_cases hw : w.windowHandle = wh
    · simp only [addOrUpdateWindowGo, if_pos hw, List.mem_cons] at hb
      rcases hb with hb | hb
      · exact Or.inr ⟨w, List.mem_cons_self w ws, by rw [hb]; rfl⟩
      · exact Or.inr ⟨b, List.mem_cons_of_mem w hb, rfl⟩
    · simp only [addOrUpdateWindowGo, if_neg hw, List.mem_cons] at hb
      rcases hb with hb | hb
      · exact Or.inr ⟨w, List.mem_cons_self w ws, by rw [hb]⟩
      · rcases ih hb with h | ⟨a, ha, hba⟩
        · exact Or.inl h
        · exact Or.inr ⟨a, List.mem_cons_of_mem w ha, hba⟩

theorem distinct_addOrUpdateWindowGo (wh : WindowInfoHandle) (f : Finset Flag)
    (p : PointerSet) (t : Option Int) (l : List TouchedWindow) (h : DistinctWindows l) :
    DistinctWindows (addOrUpdateWindowGo wh f p t l) := by
  induction l with
  | nil => simp [addOrUpdateWindowGo, DistinctWindows]
  | cons w ws ih =>
    rcases List.pairwise_cons.mp h with ⟨hw, hws⟩
    by_cases hmatch : w.windowHandle = wh
    · simp only [addOrUpdateWindowGo, if_pos hmatch]
      exact List.pairwise_cons.mpr ⟨fun b hb => by
        rw [updateEntry_windowHandle]; exact hw b hb, hws⟩
    · simp only [addOrUpdateWindowGo, if_neg hmatch]
      refine List.pairwise_cons.mpr ⟨fun b hb => ?_, ih hws⟩
      rcases handle_of_mem_addOrUpdateWindowGo wh f p t ws b hb with hbwh | ⟨a, ha, hba⟩
      · rw [hbwh]; exact fun hc => hmatch hc
      · rw [hba]; exact hw a ha

theorem addOrUpdateWindowGo_map_handle (wh : WindowInfoHandle) (f : Finset Flag)
    (p : PointerSet) (t : Option Int) (l : List TouchedWindow)
    (h : ∃ w ∈ l, w.windowHandle = wh) :
    (addOrUpdateWindowGo wh f p t l).map TouchedWindow.windowHandle =
      l.map TouchedWindow.windowHandle := by
  induction l with
  | nil => simp at h
  | cons w ws ih =>
    by_cases hmatch : w.windowHandle = wh
    · simp [addOrUpdateWindowGo, if_pos hmatch, updateEntry_windowHandle]
    · rcases h with ⟨u, hu, huwh⟩
      rcases List.mem_cons.mp hu with rfl | hu
      · exact absurd huwh hmatch
      · simp only [addOrUpdateWindowGo, if_neg hmatch, List.map_cons, List.cons.injEq, true_and]
        exact ih ⟨u, hu, huwh⟩

theorem distinct_iff_pairwise_map (l : List TouchedWindow) :
    DistinctWindows l ↔
      (l.map TouchedWindow.windowHandle).Pairwise (fun a b => a ≠ b) :=
  (List.pairwise_map).symm

theorem distinct_of_map_handle_eq (l l' : List TouchedWindow)
    (h : l'.map TouchedWindow.windowHandle = l.map TouchedWindow.windowHandle)
    (hd : DistinctWindows l) : DistinctWindows l' :=
  (distinct_iff_pairwise_map l').mpr (h ▸ (distinct_iff_pairwise_map l).mp hd)

theorem distinct_map_of_handle (f : TouchedWindow → TouchedWindow)
    (hf : ∀ w, (f w).windowHandle = w.windowHandle) (l : List TouchedWindow)
    (h : DistinctWindows l) : DistinctWindows (l.map f) := by
  refine distinct_of_map_handle_eq l (l.map f) ?_ h
  rw [List.map_map]
  exact List.map_congr_left (fun a _ => hf a)

theorem distinct_of_sublist (l l' : List TouchedWindow) (h : l'.Sublist l)
    (hd : DistinctWindows l) : DistinctWindows l' :=
  List.Pairwise.sublist h hd

theorem distinct_filterList (p : TouchedWindow → Bool) (l : List TouchedWindow)
    (h : DistinctWindows l) : DistinctWindows (l.filter p) :=
  distinct_of_sublist l (l.filter p) (List.filter_sublist l) h

theorem handle_of_mem_addHoveringPointerToWindowGo (wh : WindowInfoHandle)
    (d pid : Int) (l : List TouchedWindow) (b : TouchedWindow)
    (hb : b ∈ addHoveringPointerToWindowGo wh d pid l) :
    b.windowHandle = wh ∨ ∃ a ∈ l, b.windowHandle = a.windowHandle := by
  induction l with
  | nil =>
    simp only [addHoveringPointerToWindowGo, List.mem_singleton] at hb
    exact Or.inl (by rw [hb]; rfl)
  | cons w ws ih =>
    by_cases hw : w.windowHandle = wh
    · simp only [addHoveringPointerToWindowGo, if_pos hw, List.mem_cons] at hb
      rcases hb with hb | hb
      · exact Or.inr ⟨w, List.mem_cons_self w ws, by rw [hb]; rfl⟩
      · exact Or.inr ⟨b, List.mem_cons_of_mem w hb, rfl⟩
    · simp only [addHoveringPointerToWindowGo, if_neg hw, List.mem_cons] at hb
      rcases hb with hb | hb
      · exact Or.inr ⟨w, List.mem_cons_self w ws, by rw [hb]⟩
      · rcases ih hb with h | ⟨a, ha, hba⟩
        · exact Or.inl h
        · exact Or.inr ⟨a, List.mem_cons_of_mem w ha, hba⟩

theorem distinct_addHoveringPointerToWindowGo (wh : WindowInfoHandle) (d pid : Int)
    (l : List TouchedWindow) (h : DistinctWindows l) :
    DistinctWindows (addHoveringPointerToWindowGo wh d pid l) := by
  induction l with
  | nil => simp [addHoveringPointerToWindowGo, DistinctWindows]
  | cons w ws ih =>
    rcases List.pairwise_cons.mp h with ⟨hw, hws⟩
    by_cases hmatch : w.windowHandle = wh
    · simp only [addHoveringPointerToWindowGo, if_pos hmatch]
      exact List.pairwise_cons.mpr ⟨fun b hb => hw b hb, hws⟩
    · simp only [addHoveringPointerToWindowGo, if_neg hmatch]
      refine List.pairwise_cons.mpr ⟨fun b hb => ?_, ih hws⟩
      rcases handle_of_mem_addHoveringPointerToWindowGo wh d pid ws b hb with hbwh | ⟨a, ha, hba⟩
      · rw [hbwh]; exact fun hc => hmatch hc
      · rw [hba]; exact hw a ha

theorem addHoveringPointerToWindowGo_of_forall_ne (wh : WindowInfoHandle) (d pid : Int)
    (l : List TouchedWindow) (h : ∀ w ∈ l, w.windowHandle ≠ wh) :
    addHoveringPointerToWindowGo wh d pid l =
      l ++ [TouchedWindow.addHoveringPointer ⟨wh, ∅, ∅, ∅, ∅, none⟩ d pid] := by
  induction l with
  | nil => rfl
  | cons w ws ih =>
    have hw : w.windowHandle ≠ wh := h w (List.mem_cons_self w ws)
    simp only [addHoveringPointerToWindowGo, if_neg hw, List.cons_append, List.cons.injEq,
      true_and]
    exact ih (fun u hu => h u (List.mem_cons_of_mem w hu))

theorem addHoveringPointerToWindowGo_map_handle (wh : WindowInfoHandle) (d pid : Int)
    (l : List TouchedWindow) (h : ∃ w ∈ l, w.windowHandle = wh) :
    (addHoveringPointerToWindowGo wh d pid l).map TouchedWindow.windowHandle =
      l.map TouchedWindow.windowHandle := by
  induction l with
  | nil => simp at h
  | cons w ws ih =>
    by_cases hmatch : w.windowHandle = wh
    · simp [addHoveringPointerToWindowGo, if_pos hmatch, TouchedWindow.addHoveringPointer]
    · rcases h with ⟨u, hu, huwh⟩
      rcases List.mem_cons.mp hu with rfl | hu
      · exact absurd huwh hmatch
      · simp only [addHoveringPointerToWindowGo, if_neg hmatch, List.map_cons,
          List.cons.injEq, true_and]
        exact ih ⟨u, hu, huwh⟩

theorem removeTouchedPointerFromWindowGo_map_handle (pid : PointerId)
    (wh : WindowInfoHandle) (l : List TouchedWindow) :
    (removeTouchedPointerFromWindowGo pid wh l).map TouchedWindow.windowHandle =
      l.map TouchedWindow.windowHandle := by
  induction l with
  | nil => rfl
  | cons w ws ih =>
    by_cases hmatch : w.windowHandle = wh
    · simp [removeTouchedPointerFromWindowGo, if_pos hmatch, TouchedWindow.removeTouchingPointer]
    · simp only [removeTouchedPointerFromWindowGo, if_neg hmatch, List.map_cons,
        List.cons.injEq, true_and]
      exact ih

theorem removeWindowByTokenGo_sublist (token : Nat) (l : List TouchedWindow) :
    (removeWindowByTokenGo token l).Sublist l := by
  induction l with
  | nil => exact List.Sublist.refl []
  | cons w ws ih =>
    by_cases hmatch : w.windowHandle.token = token
    · simp only [removeWindowByTokenGo, if_pos hmatch]
      exact List.sublist_cons_self w ws
    · simp only [removeWindowByTokenGo, if_neg hmatch]
      exact List.Sublist.cons₂ w ih

theorem filterNonAsIsTouchWindowsGo_eq (l : List TouchedWindow) :
    filterNonAsIsTouchWindowsGo l =
      (l.filter (fun w => decide (Flag.DISPATCH_AS_IS ∈ w.targetFlags ∨
          Flag.DISPATCH_AS_SLIPPERY_ENTER ∈ w.targetFlags))).map
        (fun w => { w with targetFlags :=
          (w.targetFlags \ DISPATCH_MASK) ∪ {Flag.DISPATCH_AS_IS} }) := by
  induction l with
  | nil => rfl
  | cons w ws ih =>
    by_cases hkeep : Flag.DISPATCH_AS_IS ∈ w.targetFlags ∨
        Flag.DISPATCH_AS_SLIPPERY_ENTER ∈ w.targetFlags
    · simp [filterNonAsIsTouchWindowsGo, if_pos hkeep, List.filter_cons, hkeep, ih]
    · simp [filterNonAsIsTouchWindowsGo, if_neg hkeep, List.filter_cons, hkeep, ih]

theorem acc_subset_pilferedFoldl (l : List TouchedWindow) :
    ∀ acc : PointerSet,
      acc ⊆ l.foldl (fun a u => a ∪ u.pilferedPointerIds) acc := by
  induction l with
  | nil => intro acc; exact Finset.Subset.refl acc
  | cons w ws ih =>
    intro acc
    simp only [List.foldl_cons]
    exact (Finset.subset_union_left).trans (ih (acc ∪ w.pilferedPointerIds))

theorem pilfered_subset_pilferedFoldl (l : List TouchedWindow) (w : TouchedWindow)
    (hw : w ∈ l) :
    ∀ acc : PointerSet,
      w.pilferedPointerIds ⊆ l.foldl (fun a u => a ∪ u.pilferedPointerIds) acc := by
  induction l with
  | nil => exact absurd hw (List.not_mem_nil w)
  | cons u us ih =>
    intro acc
    simp only [List.foldl_cons]
    rcases List.mem_cons.mp hw with rfl | hw
    · exact (Finset.subset_union_right).trans (acc_subset_pilferedFoldl us _)
    · exact ih hw _

theorem pilfered_subset_allPilfered (s : TouchState) (w : TouchedWindow)
    (hw : w ∈ s.windows) : w.pilferedPointerIds ⊆ s.allPilferedPointerIds :=
  pilfered_subset_pilferedFoldl s.windows w hw ∅

theorem find?_first_match (wh : WindowInfoHandle) (pre : List TouchedWindow)
    (w : TouchedWindow) (post : List TouchedWindow)
    (hpre : ∀ u ∈ pre, u.windowHandle ≠ wh) (hw : w.windowHandle = wh) :
    (pre ++ w :: post).find? (fun u => decide (u.windowHandle = wh)) = some w := by
  induction pre with
  | nil =>
    simp only [List.nil_append]
    exact List.find?_cons_of_pos _ (by simp [hw])
  | cons u us ih =>
    have hu : u.windowHandle ≠ wh := hpre u (List.mem_cons_self u us)
    simp only [List.cons_append]
    rw [List.find?_cons_of_neg _ (by simp [hu])]
    exact ih (fun v hv => hpre v (List.mem_cons_of_mem u hv))

/-- C1 counterexample: on an entry whose flags are exactly AS_IS, a call
passing exactly SLIPPERY_EXIT leaves the entry's flags as the singleton
SLIPPERY_EXIT, not the claimed bitwise OR of old and new flags. -/
theorem claimC1_counterexample :
    (TouchState.addOrUpdateWindow ⟨1, 0, [⟨whA, {DISPATCH_AS_IS}, ∅, ∅, ∅, none⟩]⟩ whA
        {DISPATCH_AS_SLIPPERY_EXIT} ∅ none).windows.map (fun w => w.targetFlags) =
      [{DISPATCH_AS_SLIPPERY_EXIT}] ∧
    ({DISPATCH_AS_IS} : Finset Flag) ∪ {DISPATCH_AS_SLIPPERY_EXIT} ≠
      ({DISPATCH_AS_SLIPPERY_EXIT} : Finset Flag) := by decide

/-- C1 (amended): `addOrUpdateWindow` appends a new entry with exactly the
given fields when no entry has the given handle identity; when one does, the
first such entry is updated in place: its flags become the union of old and
new flags except that AS_IS is erased when the new flags contain
SLIPPERY_EXIT, its touching set becomes the union of old and new pointer
sets (no previously set pointer bit is removed), and its first-down time is
adopted only when previously absent. -/
theorem claimC1_addOrUpdateWindow_upsert (wh : WindowInfoHandle) (f : Finset Flag)
    (p : PointerSet) (t : Option Int) :
    (∀ s : TouchState, (∀ w ∈ s.windows, w.windowHandle ≠ wh) →
      (s.addOrUpdateWindow wh f p t).windows = s.windows ++ [newWindow wh f p t]) ∧
    (∀ (s : TouchState) (pre : List TouchedWindow) (w : TouchedWindow)
        (post : List TouchedWindow),
      s.windows = pre ++ w :: post → (∀ u ∈ pre, u.windowHandle ≠ wh) →
      w.windowHandle = wh →
      (s.addOrUpdateWindow wh f p t).windows = pre ++ updateEntry w f p t :: post) ∧
    (∀ w : TouchedWindow,
      (updateEntry w f p t).windowHandle = w.windowHandle ∧
      (updateEntry w f p t).pointerIds = w.pointerIds ∪ p ∧
      w.pointerIds ⊆ (updateEntry w f p t).pointerIds ∧
      (updateEntry w f p t).targetFlags =
        (if Flag.DISPATCH_AS_SLIPPERY_EXIT ∈ f then
          (w.targetFlags ∪ f).erase Flag.DISPATCH_AS_IS
         else w.targetFlags ∪ f) ∧
      (∀ T : Int, w.firstDownTimeInTarget = some T →
        (updateEntry w f p t).firstDownTimeInTarget = some T) ∧
      (w.firstDownTimeInTarget = none →
        (updateEntry w f p t).firstDownTimeInTarget = t)) := by
  refine ⟨fun s hs => ?_, fun s pre w post hdec hpre hw => ?_, fun w => ?_⟩
  · simp only [TouchState.addOrUpdateWindow]
    exact addOrUpdateWindowGo_of_forall_ne wh f p t s.windows hs
  · simp only [TouchState.addOrUpdateWindow, hdec]
    exact addOrUpdateWindowGo_append wh f p t pre w post hpre hw
  · refine ⟨rfl, rfl, ?_, rfl, fun T hT => ?_, fun hnone => ?_⟩
    · exact Finset.subset_union_left
    · simp [updateEntry, hT]
    · simp [updateEntry, hnone]

/-- C1 witness: the amended upsert contract instantiated on concrete states,
once for the insert path and once for the in-place update path. -/
theorem claimC1_witness :
    (TouchState.addOrUpdateWindow ⟨1, 0, []⟩ whA {FOREGROUND} {0} (some 3)).windows =
      [newWindow whA {FOREGROUND} {0} (some 3)] ∧
    (TouchState.addOrUpdateWindow ⟨1, 0, [⟨whA, ∅, {1}, ∅, ∅, some 5⟩]⟩ whA {FOREGROUND}
        {2} (some 9)).windows =
      [updateEntry ⟨whA, ∅, {1}, ∅, ∅, some 5⟩ {FOREGROUND} {2} (some 9)] :=
  ⟨by
    have h := (claimC1_addOrUpdateWindow_upsert whA {FOREGROUND} {0} (some 3)).1
      ⟨1, 0, []⟩ (by decide)
    simpa using h,
   by
    have h := (claimC1_addOrUpdateWindow_upsert whA {FOREGROUND} {2} (some 9)).2.1
      ⟨1, 0, [⟨whA, ∅, {1}, ∅, ∅, some 5⟩]⟩ [] ⟨whA, ∅, {1}, ∅, ∅, some 5⟩ []
      (by decide) (by decide) (by decide)
    simpa using h⟩

/-- C9: `removeTouchedPointer` is idempotent, and removing a pointer absent
from an entry's touching set leaves that entry unchanged. -/
theorem claimC9_removeTouchedPointer_idempotent :
    (∀ (s : TouchState) (pointerId : PointerId),
      (s.removeTouchedPointer pointerId).removeTouchedPointer pointerId =
        s.removeTouchedPointer pointerId) ∧
    (∀ (w : TouchedWindow) (pointerId : PointerId), pointerId ∉ w.pointerIds →
      w.removeTouchingPointer pointerId = w) := by
  constructor
  · intro s pointerId
    simp [TouchState.removeTouchedPointer, List.map_map, Function.comp_def,
      TouchedWindow.removeTouchingPointer, Finset.erase_idem]
  · intro w pointerId h
    simp [TouchedWindow.removeTouchingPointer, Finset.erase_eq_of_not_mem h]

/-- C9 witness: idempotence and the absent-pointer no-op on concrete data. -/
theorem claimC9_witness :
    ((⟨1, 0, [⟨whA, ∅, {1, 2}, ∅, ∅, none⟩]⟩ : TouchState).removeTouchedPointer
        1).removeTouchedPointer 1 =
      (⟨1, 0, [⟨whA, ∅, {1, 2}, ∅, ∅, none⟩]⟩ : TouchState).removeTouchedPointer 1 ∧
    TouchedWindow.removeTouchingPointer ⟨whA, ∅, {1}, ∅, ∅, none⟩ 0 =
      ⟨whA, ∅, {1}, ∅, ∅, none⟩ :=
  ⟨claimC9_removeTouchedPointer_idempotent.1 ⟨1, 0, [⟨whA, ∅, {1, 2}, ∅, ∅, none⟩]⟩ 1,
   claimC9_removeTouchedPointer_idempotent.2 ⟨whA, ∅, {1}, ∅, ∅, none⟩ 0 (by decide)⟩

/-- C4 counterexample: the insert path of `addOrUpdateWindow` copies the
given flags verbatim, so inserting with flags AS_IS together with
SLIPPERY_EXIT creates an entry whose flags contain both, violating the
claimed exclusivity. -/
theorem claimC4_counterexample :
    (TouchState.addOrUpdateWindow ⟨1, 0, []⟩ whA
        {DISPATCH_AS_IS, DISPATCH_AS_SLIPPERY_EXIT} {0} none).windows.map
        (fun w => w.targetFlags) = [{DISPATCH_AS_IS, DISPATCH_AS_SLIPPERY_EXIT}] ∧
    DISPATCH_AS_SLIPPERY_EXIT ∈ ({DISPATCH_AS_IS, DISPATCH_AS_SLIPPERY_EXIT} : Finset Flag) ∧
    DISPATCH_AS_IS ∈ ({DISPATCH_AS_IS, DISPATCH_AS_SLIPPERY_EXIT} : Finset Flag) := by decide

/-- C4 (amended): when `addOrUpdateWindow` is called with flags that include
SLIPPERY_EXIT, the entry updated in place has AS_IS absent from its flags
after the call; on the insert path the new entry carries exactly the given
flags, so AS_IS is absent only when the given flags do not themselves
include it. -/
theorem claimC4_slipperyExitExcludesAsIs :
    (∀ (w : TouchedWindow) (f : Finset Flag) (p : PointerSet) (t : Option Int),
      Flag.DISPATCH_AS_SLIPPERY_EXIT ∈ f →
      Flag.DISPATCH_AS_IS ∉ (updateEntry w f p t).targetFlags) ∧
    (∀ (s : TouchState) (pre : List TouchedWindow) (w : TouchedWindow)
        (post : List TouchedWindow) (wh : WindowInfoHandle) (f : Finset Flag)
        (p : PointerSet) (t : Option Int),
      s.windows = pre ++ w :: post → (∀ u ∈ pre, u.windowHandle ≠ wh) →
      w.windowHandle = wh → Flag.DISPATCH_AS_SLIPPERY_EXIT ∈ f →
      (s.addOrUpdateWindow wh f p t).windows = pre ++ updateEntry w f p t :: post ∧
      Flag.DISPATCH_AS_IS ∉ (updateEntry w f p t).targetFlags) ∧
    (∀ (s : TouchState) (wh : WindowInfoHandle) (f : Finset Flag) (p : PointerSet)
        (t : Option Int),
      (∀ u ∈ s.windows, u.windowHandle ≠ wh) → Flag.DISPATCH_AS_IS ∉ f →
      ∀ w' ∈ (s.addOrUpdateWindow wh f p t).windows,
        w' ∈ s.windows ∨ Flag.DISPATCH_AS_IS ∉ w'.targetFlags) := by
  have hupd : ∀ (w : TouchedWindow) (f : Finset Flag) (p : PointerSet) (t : Option Int),
      Flag.DISPATCH_AS_SLIPPERY_EXIT ∈ f →
      Flag.DISPATCH_AS_IS ∉ (updateEntry w f p t).targetFlags := by
    intro w f p t hf
    show Flag.DISPATCH_AS_IS ∉
      (if Flag.DISPATCH_AS_SLIPPERY_EXIT ∈ f then
        (w.targetFlags ∪ f).erase Flag.DISPATCH_AS_IS
       else w.targetFlags ∪ f)
    rw [if_pos hf]
    exact Finset.not_mem_erase _ _
  refine ⟨hupd, fun s pre w post wh f p t hdec hpre hw hf => ?_,
    fun s wh f p t habs hnf w' hw' => ?_⟩
  · refine ⟨?_, hupd w f p t hf⟩
    simp only [TouchState.addOrUpdateWindow, hdec]
    exact addOrUpdateWindowGo_append wh f p t pre w post hpre hw
  · have hres : (s.addOrUpdateWindow wh f p t).windows =
        s.windows ++ [newWindow wh f p t] := by
      simp only [TouchState.addOrUpdateWindow]
      exact addOrUpdateWindowGo_of_forall_ne wh f p t s.windows habs
    rw [hres] at hw'
    rcases List.mem_append.mp hw' with hmem | hmem
    · exact Or.inl hmem
    · rw [List.mem_singleton.mp hmem]
      exact Or.inr hnf

/-- C4 witness: the amended exclusivity instantiated on concrete states, for
the update path and for the insert path. -/
theorem claimC4_witness :
    ((TouchState.addOrUpdateWindow ⟨1, 0, [⟨whA, {DISPATCH_AS_IS}, ∅, ∅, ∅, none⟩]⟩ whA
        {DISPATCH_AS_SLIPPERY_EXIT} ∅ none).windows =
      [updateEntry ⟨whA, {DISPATCH_AS_IS}, ∅, ∅, ∅, none⟩ {DISPATCH_AS_SLIPPERY_EXIT} ∅ none] ∧
     Flag.DISPATCH_AS_IS ∉
      (updateEntry ⟨whA, {DISPATCH_AS_IS}, ∅, ∅, ∅, none⟩ {DISPATCH_AS_SLIPPERY_EXIT} ∅
        none).targetFlags) ∧
    (∀ w' ∈ (TouchState.addOrUpdateWindow ⟨1, 0, []⟩ whA {DISPATCH_AS_SLIPPERY_EXIT} {0}
        none).windows,
      w' ∈ ([] : List TouchedWindow) ∨ Flag.DISPATCH_AS_IS ∉ w'.targetFlags) := by
  constructor
  · have h := claimC4_slipperyExitExcludesAsIs.2.1
      ⟨1, 0, [⟨whA, {DISPATCH_AS_IS}, ∅, ∅, ∅, none⟩]⟩ []
      ⟨whA, {DISPATCH_AS_IS}, ∅, ∅, ∅, none⟩ [] whA {DISPATCH_AS_SLIPPERY_EXIT} ∅ none
      (by decide) (by decide) (by decide) (by decide)
    simpa using h
  · exact claimC4_slipperyExitExcludesAsIs.2.2 ⟨1, 0, []⟩ whA {DISPATCH_AS_SLIPPERY_EXIT}
      {0} none (by decide) (by decide)

/-- C6: starting from a state with pairwise distinct window-handle
identities, every operation preserves that uniqueness; moreover the two
upserts update in place (identical handle sequence) when an entry with the
given identity is present, and append exactly one new entry only when none
is present. -/
theorem claimC6_uniqueness_preserved :
    (∀ s : TouchState, UniqueWindows s →
      UniqueWindows s.reset ∧
      (∀ pid : PointerId, UniqueWindows (s.removeTouchedPointer pid)) ∧
      (∀ (pid : PointerId) (wh : WindowInfoHandle),
        UniqueWindows (s.removeTouchedPointerFromWindow pid wh)) ∧
      UniqueWindows s.clearHoveringPointers ∧
      UniqueWindows s.clearWindowsWithoutPointers ∧
      (∀ (wh : WindowInfoHandle) (f : Finset Flag) (p : PointerSet) (t : Option Int),
        UniqueWindows (s.addOrUpdateWindow wh f p t)) ∧
      (∀ (wh : WindowInfoHandle) (d pid : Int),
        UniqueWindows (s.addHoveringPointerToWindow wh d pid)) ∧
      (∀ token : Nat, UniqueWindows (s.removeWindowByToken token)) ∧
      UniqueWindows s.filterNonAsIsTouchWindows ∧
      (∀ (p : PointerSet) (token : Nat),
        UniqueWindows (s.cancelPointersForWindowsExcept p token)) ∧
      UniqueWindows s.cancelPointersForNonPilferingWindows ∧
      (∀ d pid : Int, UniqueWindows (s.removeHoveringPointer d pid))) ∧
    (∀ (s : TouchState) (wh : WindowInfoHandle) (f : Finset Flag) (p : PointerSet)
        (t : Option Int),
      ((∃ w ∈ s.windows, w.windowHandle = wh) →
        (s.addOrUpdateWindow wh f p t).windows.map TouchedWindow.windowHandle =
          s.windows.map TouchedWindow.windowHandle) ∧
      ((∀ w ∈ s.windows, w.windowHandle ≠ wh) →
        (s.addOrUpdateWindow wh f p t).windows = s.windows ++ [newWindow wh f p t])) ∧
    (∀ (s : TouchState) (wh : WindowInfoHandle) (d pid : Int),
      ((∃ w ∈ s.windows, w.windowHandle = wh) →
        (s.addHoveringPointerToWindow wh d pid).windows.map TouchedWindow.windowHandle =
          s.windows.map TouchedWindow.windowHandle) ∧
      ((∀ w ∈ s.windows, w.windowHandle ≠ wh) →
        (s.addHoveringPointerToWindow wh d pid).windows =
          s.windows ++ [TouchedWindow.addHoveringPointer ⟨wh, ∅, ∅, ∅, ∅, none⟩ d pid])) := by
  refine ⟨fun s hs => ?_, fun s wh f p t => ?_, fun s wh d pid => ?_⟩
  · refine ⟨List.Pairwise.nil, fun pid => ?_, fun pid wh => ?_, ?_, ?_,
      fun wh f p t => ?_, fun wh d pid => ?_, fun token => ?_, ?_, fun p token => ?_,
      ?_, fun d pid => ?_⟩
    · exact distinct_map_of_handle (fun w => w.removeTouchingPointer pid) (fun w => rfl)
        s.windows hs
    · exact distinct_of_map_handle_eq s.windows _
        (removeTouchedPointerFromWindowGo_map_handle pid wh s.windows) hs
    · exact distinct_map_of_handle TouchedWindow.clearHoveringPointers (fun w => rfl)
        s.windows hs
    · exact distinct_filterList _ s.windows hs
    · exact distinct_addOrUpdateWindowGo wh f p t s.windows hs
    · exact distinct_addHoveringPointerToWindowGo wh d pid s.windows hs
    · exact distinct_of_sublist s.windows _ (removeWindowByTokenGo_sublist token s.windows) hs
    · show DistinctWindows (filterNonAsIsTouchWindowsGo s.windows)
      rw [filterNonAsIsTouchWindowsGo_eq]
      exact distinct_map_of_handle
        (fun w => { w with targetFlags :=
          (w.targetFlags \ DISPATCH_MASK) ∪ {Flag.DISPATCH_AS_IS} })
        (fun w => rfl) _ (distinct_filterList _ s.windows hs)
    · show DistinctWindows (TouchState.cancelPointersForWindowsExcept s p token).windows
      unfold TouchState.cancelPointersForWindowsExcept
      by_cases hp : p = ∅
      · rw [if_pos hp]; exact hs
      · rw [if_neg hp]
        refine distinct_filterList _ _ (distinct_map_of_handle
          (fun w => if w.windowHandle.token ≠ token then
            { w with pointerIds := w.pointerIds \ p } else w)
          (fun w => ?_) s.windows hs)
        simp only
        by_cases htk : w.windowHandle.token ≠ token
        · rw [if_pos htk]
        · rw [if_neg htk]
    · show DistinctWindows (TouchState.cancelPointersForNonPilferingWindows s).windows
      unfold TouchState.cancelPointersForNonPilferingWindows
      by_cases hall : s.allPilferedPointerIds = ∅
      · simp only [if_pos hall]; exact hs
      · simp only [if_neg hall]
        exact distinct_filterList _ _ (distinct_map_of_handle
          (fun w => { w with pointerIds := w.pointerIds \
            ((w.pilferedPointerIds \ s.allPilferedPointerIds) ∪
              (s.allPilferedPointerIds \ w.pilferedPointerIds)) })
          (fun w => rfl) s.windows hs)
    · exact distinct_filterList _ _ (distinct_map_of_handle
        (fun w => w.removeHoveringPointer d pid) (fun w => rfl) s.windows hs)
  · constructor
    · intro h
      exact addOrUpdateWindowGo_map_handle wh f p t s.windows h
    · intro h
      exact addOrUpdateWindowGo_of_forall_ne wh f p t s.windows h
  · constructor
    · intro h
      exact addHoveringPointerToWindowGo_map_handle wh d pid s.windows h
    · intro h
      exact addHoveringPointerToWindowGo_of_forall_ne wh d pid s.windows h

/-- C6 witness: uniqueness preservation and the two upsert membership facts
instantiated on concrete states. -/
theorem claimC6_witness :
    UniqueWindows ((⟨1, 0, [⟨whA, ∅, {0}, ∅, ∅, none⟩, ⟨whB, ∅, {1}, ∅, ∅, none⟩]⟩ :
        TouchState).addOrUpdateWindow whA ∅ {2} none) ∧
    ((⟨1, 0, [⟨whA, ∅, {0}, ∅, ∅, none⟩]⟩ : TouchState).addHoveringPointerToWindow whB 5
        0).windows =
      [⟨whA, ∅, {0}, ∅, ∅, none⟩] ++
        [TouchedWindow.addHoveringPointer ⟨whB, ∅, ∅, ∅, ∅, none⟩ 5 0] :=
  ⟨((claimC6_uniqueness_preserved.1
      ⟨1, 0, [⟨whA, ∅, {0}, ∅, ∅, none⟩, ⟨whB, ∅, {1}, ∅, ∅, none⟩]⟩
      (by decide)).2.2.2.2.2.1) whA ∅ {2} none,
   (claimC6_uniqueness_preserved.2.2 ⟨1, 0, [⟨whA, ∅, {0}, ∅, ∅, none⟩]⟩ whB 5 0).2
     (by decide)⟩

/-- C2 counterexample: pointer 0 is pilfered by two entries (those of `whA`
and `whB`) and touched by the entries of `whC` and `whD`, which pilfer
nothing; after `cancelPointersForNonPilferingWindows` pointer 0 has been
removed from `whC`'s touching set, and `whD`'s entry (left with an empty
touching set) has been pruned — contradicting the claim that a pointer
pilfered by two or more entries is removed from no entry's touching set. -/
theorem claimC2_counterexample :
    (⟨1, 0, [⟨whA, ∅, {0}, {0}, ∅, none⟩, ⟨whB, ∅, {0}, {0}, ∅, none⟩,
        ⟨whC, ∅, {0, 1}, ∅, ∅, none⟩, ⟨whD, ∅, {0}, ∅, ∅, none⟩]⟩ :
      TouchState).windows.map (fun w => (w.pilferedPointerIds, w.pointerIds)) =
      [({0}, {0}), ({0}, {0}), (∅, {0, 1}), (∅, {0})] ∧
    ((⟨1, 0, [⟨whA, ∅, {0}, {0}, ∅, none⟩, ⟨whB, ∅, {0}, {0}, ∅, none⟩,
        ⟨whC, ∅, {0, 1}, ∅, ∅, none⟩, ⟨whD, ∅, {0}, ∅, ∅, none⟩]⟩ :
      TouchState).cancelPointersForNonPilferingWindows).windows.map
      (fun w => (w.windowHandle.instanceId, w.pointerIds)) =
      [(0, {0}), (1, {0}), (2, {1})] ∧
    (0 : PointerId) ∉ ({1} : PointerSet) := by decide

/-- C2 (amended): `cancelPointersForNonPilferingWindows` is a no-op when no
entry pilfers any pointer; otherwise each entry's touching set loses exactly
the bits in the symmetric difference of its own pilfered set and the union
of all pilfered sets, entries whose touching set thereby becomes empty are
pruned, and a pointer is removed from no entry that itself pilfers it (the
pilfer-symmetry and pilfer-overlap scenarios of the spec are instantiated
below). -/
theorem claimC2_cancelNonPilfering :
    (∀ s : TouchState, s.allPilferedPointerIds = ∅ →
      s.cancelPointersForNonPilferingWindows = s) ∧
    (∀ s : TouchState, s.allPilferedPointerIds ≠ ∅ →
      (s.cancelPointersForNonPilferingWindows).windows =
        (s.windows.map (fun w => { w with pointerIds := w.pointerIds \
            ((w.pilferedPointerIds \ s.allPilferedPointerIds) ∪
             (s.allPilferedPointerIds \ w.pilferedPointerIds)) })).filter
          (fun w => decide (w.pointerIds ≠ ∅))) ∧
    (∀ (s : TouchState) (w : TouchedWindow), w ∈ s.windows →
      ∀ pid : PointerId, pid ∈ w.pilferedPointerIds → pid ∈ w.pointerIds →
      ∃ w' ∈ (s.cancelPointersForNonPilferingWindows).windows,
        w'.windowHandle = w.windowHandle ∧ pid ∈ w'.pointerIds) ∧
    ((⟨1, 0, [⟨whA, ∅, {1, 2}, {1}, ∅, none⟩, ⟨whB, ∅, {1, 2}, {2}, ∅, none⟩]⟩ :
        TouchState).cancelPointersForNonPilferingWindows).windows.map
      (fun w => w.pointerIds) = [{1}, {2}] ∧
    ((⟨1, 0, [⟨whA, ∅, {1, 2}, {1}, ∅, none⟩, ⟨whB, ∅, {1, 2}, {1}, ∅, none⟩]⟩ :
        TouchState).cancelPointersForNonPilferingWindows).windows.map
      (fun w => w.pointerIds) = [{1, 2}, {1, 2}] := by
  have ha : ∀ s : TouchState, s.allPilferedPointerIds = ∅ →
      s.cancelPointersForNonPilferingWindows = s := by
    intro s h
    simp [TouchState.cancelPointersForNonPilferingWindows, h]
  have hb : ∀ s : TouchState, s.allPilferedPointerIds ≠ ∅ →
      (s.cancelPointersForNonPilferingWindows).windows =
        (s.windows.map (fun w => { w with pointerIds := w.pointerIds \
            ((w.pilferedPointerIds \ s.allPilferedPointerIds) ∪
             (s.allPilferedPointerIds \ w.pilferedPointerIds)) })).filter
          (fun w => decide (w.pointerIds ≠ ∅)) := by
    intro s h
    simp [TouchState.cancelPointersForNonPilferingWindows, h]
  refine ⟨ha, hb, ?_, by decide, by decide⟩
  intro s w hw pid hpilf htouch
  have hall : pid ∈ s.allPilferedPointerIds := pilfered_subset_allPilfered s w hw hpilf
  have hne : s.allPilferedPointerIds ≠ ∅ := Finset.ne_empty_of_mem hall
  rw [hb s hne]
  refine ⟨{ w with pointerIds := w.pointerIds \
      ((w.pilferedPointerIds \ s.allPilferedPointerIds) ∪
       (s.allPilferedPointerIds \ w.pilferedPointerIds)) }, ?_, rfl, ?_⟩
  · have hpid : pid ∈ w.pointerIds \
        ((w.pilferedPointerIds \ s.allPilferedPointerIds) ∪
         (s.allPilferedPointerIds \ w.pilferedPointerIds)) := by
      rw [Finset.mem_sdiff]
      refine ⟨htouch, ?_⟩
      rw [Finset.mem_union]
      rintro (hmem | hmem)
      · exact (Finset.mem_sdiff.mp hmem).2 hall
      · exact (Finset.mem_sdiff.mp hmem).2 hpilf
    refine List.mem_filter.mpr ⟨List.mem_map_of_mem _ hw, ?_⟩
    simpa using Finset.ne_empty_of_mem hpid
  · rw [Finset.mem_sdiff]
    refine ⟨htouch, ?_⟩
    rw [Finset.mem_union]
    rintro (hmem | hmem)
    · exact (Finset.mem_sdiff.mp hmem).2 hall
    · exact (Finset.mem_sdiff.mp hmem).2 hpilf

/-- C2 witness: the no-op case and the pilferer-keeps-its-pointer case on
concrete states. -/
theorem claimC2_witness :
    (⟨1, 0, [⟨whA, ∅, {0}, ∅, ∅, none⟩]⟩ :
        TouchState).cancelPointersForNonPilferingWindows =
      ⟨1, 0, [⟨whA, ∅, {0}, ∅, ∅, none⟩]⟩ ∧
    (∃ w' ∈ ((⟨1, 0, [⟨whA, ∅, {0, 1}, {0}, ∅, none⟩, ⟨whB, ∅, {0}, ∅, ∅, none⟩]⟩ :
        TouchState).cancelPointersForNonPilferingWindows).windows,
      w'.windowHandle = whA ∧ (0 : PointerId) ∈ w'.pointerIds) :=
  ⟨claimC2_cancelNonPilfering.1 ⟨1, 0, [⟨whA, ∅, {0}, ∅, ∅, none⟩]⟩ (by decide),
   claimC2_cancelNonPilfering.2.2.1
     ⟨1, 0, [⟨whA, ∅, {0, 1}, {0}, ∅, none⟩, ⟨whB, ∅, {0}, ∅, ∅, none⟩]⟩
     ⟨whA, ∅, {0, 1}, {0}, ∅, none⟩ (by decide) 0 (by decide) (by decide)⟩

/-- C3 counterexample: two concrete calls to
`cancelPointersForWindowsExcept`.  First, an entry (token 0) with a hovering
pointer loses its only touching pointer and is pruned even though its
hovering set is non-empty.  Second, an entry whose token equals
`exceptToken` but whose touching set is empty is pruned as well, so such
entries are not left untouched. -/
theorem claimC3_counterexample :
    (((⟨1, 0, [⟨whA, ∅, {0}, ∅, {(7, 3)}, none⟩]⟩ :
        TouchState).cancelPointersForWindowsExcept {0} 9).windows = [] ∧
      (⟨whA, ∅, {0}, ∅, {(7, 3)}, none⟩ : TouchedWindow).hoveringPointers ≠ ∅) ∧
    (((⟨1, 0, [⟨whA, ∅, ∅, ∅, {(7, 3)}, none⟩]⟩ :
        TouchState).cancelPointersForWindowsExcept {0} 0).windows = [] ∧
      whA.token = 0) := by decide

/-- C3 (amended): with a non-empty pointer set the call clears those bits
from the touching set of every entry whose token differs from `exceptToken`,
leaves the fields of matching-token entries unchanged, and then prunes
exactly the entries left with an empty touching set — regardless of their
hovering sets and including entries whose token equals `exceptToken`; with
an empty pointer set the whole state is unchanged. -/
theorem claimC3_cancelPointersForWindowsExcept :
    (∀ (s : TouchState) (token : Nat), s.cancelPointersForWindowsExcept ∅ token = s) ∧
    (∀ (s : TouchState) (p : PointerSet) (token : Nat), p ≠ ∅ →
      (s.cancelPointersForWindowsExcept p token).windows =
        (s.windows.map (fun w =>
          if w.windowHandle.token ≠ token then
            { w with pointerIds := w.pointerIds \ p }
          else w)).filter (fun w => decide (w.pointerIds ≠ ∅))) ∧
    (∀ (s : TouchState) (p : PointerSet) (token : Nat),
      ∀ w' ∈ (s.cancelPointersForWindowsExcept p token).windows,
        (w'.windowHandle.token = token → w' ∈ s.windows) ∧
        (w'.windowHandle.token ≠ token → w'.pointerIds ∩ p = ∅) ∧
        (p ≠ ∅ → w'.pointerIds ≠ ∅)) := by
  have ha : ∀ (s : TouchState) (token : Nat),
      s.cancelPointersForWindowsExcept ∅ token = s := by
    intro s token
    simp [TouchState.cancelPointersForWindowsExcept]
  have hb : ∀ (s : TouchState) (p : PointerSet) (token : Nat), p ≠ ∅ →
      (s.cancelPointersForWindowsExcept p token).windows =
        (s.windows.map (fun w =>
          if w.windowHandle.token ≠ token then
            { w with pointerIds := w.pointerIds \ p }
          else w)).filter (fun w => decide (w.pointerIds ≠ ∅)) := by
    intro s p token hp
    simp [TouchState.cancelPointersForWindowsExcept, hp]
  refine ⟨ha, hb, ?_⟩
  intro s p token w' hw'
  by_cases hp : p = ∅
  · subst hp
    rw [ha s token] at hw'
    exact ⟨fun _ => hw', fun _ => Finset.inter_empty _, fun hne => absurd rfl hne⟩
  · rw [hb s p token hp] at hw'
    rcases List.mem_filter.mp hw' with ⟨hmem, hpred⟩
    rcases List.mem_map.mp hmem with ⟨w, hw, heq⟩
    have hne' : w'.pointerIds ≠ ∅ := by simpa using hpred
    refine ⟨?_, ?_, fun _ => hne'⟩
    · intro htk
      by_cases hwtk : w.windowHandle.token ≠ token
      · rw [if_pos hwtk] at heq
        rw [← heq] at htk
        exact absurd htk hwtk
      · rw [if_neg hwtk] at heq
        rw [← heq]
        exact hw
    · intro htk
      by_cases hwtk : w.windowHandle.token ≠ token
      · rw [if_pos hwtk] at heq
        rw [← heq]
        exact Finset.sdiff_inter_self _ _
      · rw [if_neg hwtk] at heq
        rw [← heq] at htk
        exact absurd (not_not.mp hwtk) htk

/-- C3 witness: the empty-set no-op and the per-entry facts on a concrete
call in which one entry keeps its token and the other loses bits 1 and 2. -/
theorem claimC3_witness :
    (⟨1, 0, [⟨whA, ∅, {0}, ∅, ∅, none⟩]⟩ :
        TouchState).cancelPointersForWindowsExcept ∅ 0 =
      ⟨1, 0, [⟨whA, ∅, {0}, ∅, ∅, none⟩]⟩ ∧
    (∀ w' ∈ ((⟨1, 0, [⟨whA, ∅, {1, 2}, ∅, ∅, none⟩, ⟨whB, ∅, {1, 2, 3}, ∅, ∅, none⟩]⟩ :
        TouchState).cancelPointersForWindowsExcept {1, 2} 0).windows,
      (w'.windowHandle.token = 0 →
        w' ∈ (⟨1, 0, [⟨whA, ∅, {1, 2}, ∅, ∅, none⟩, ⟨whB, ∅, {1, 2, 3}, ∅, ∅, none⟩]⟩ :
          TouchState).windows) ∧
      (w'.windowHandle.token ≠ 0 → w'.pointerIds ∩ {1, 2} = ∅) ∧
      (({1, 2} : PointerSet) ≠ ∅ → w'.pointerIds ≠ ∅)) :=
  ⟨claimC3_cancelPointersForWindowsExcept.1 ⟨1, 0, [⟨whA, ∅, {0}, ∅, ∅, none⟩]⟩ 0,
   claimC3_cancelPointersForWindowsExcept.2.2
     ⟨1, 0, [⟨whA, ∅, {1, 2}, ∅, ∅, none⟩, ⟨whB, ∅, {1, 2, 3}, ∅, ∅, none⟩]⟩ {1, 2} 0⟩

/-- C10: `cancelPointersForNonPilferingWindows` changes only touching sets
and the membership of the windows sequence: the sequence of all other entry
fields of the result is a sublist (order preserved) of that of the input,
and the device identity fields are unchanged. -/
theorem claimC10_cancelNonPilfering_frame :
    ∀ s : TouchState,
      ((s.cancelPointersForNonPilferingWindows).windows.map frameFields).Sublist
        (s.windows.map frameFields) ∧
      (s.cancelPointersForNonPilferingWindows).deviceId = s.deviceId ∧
      (s.cancelPointersForNonPilferingWindows).source = s.source := by
  intro s
  by_cases hall : s.allPilferedPointerIds = ∅
  · have h : s.cancelPointersForNonPilferingWindows = s := by
      simp [TouchState.cancelPointersForNonPilferingWindows, hall]
    rw [h]
    exact ⟨List.Sublist.refl _, rfl, rfl⟩
  · have h : (s.cancelPointersForNonPilferingWindows).windows =
        (s.windows.map (fun w => { w with pointerIds := w.pointerIds \
            ((w.pilferedPointerIds \ s.allPilferedPointerIds) ∪
             (s.allPilferedPointerIds \ w.pilferedPointerIds)) })).filter
          (fun w => decide (w.pointerIds ≠ ∅)) := by
      simp [TouchState.cancelPointersForNonPilferingWindows, hall]
    have hdev : (s.cancelPointersForNonPilferingWindows).deviceId = s.deviceId := by
      simp [TouchState.cancelPointersForNonPilferingWindows, hall]
    have hsrc : (s.cancelPointersForNonPilferingWindows).source = s.source := by
      simp [TouchState.cancelPointersForNonPilferingWindows, hall]
    refine ⟨?_, hdev, hsrc⟩
    rw [h]
    have hsub := List.Sublist.map frameFields (List.filter_sublist
      (l := s.windows.map (fun w => { w with pointerIds := w.pointerIds \
          ((w.pilferedPointerIds \ s.allPilferedPointerIds) ∪
           (s.allPilferedPointerIds \ w.pilferedPointerIds)) }))
      (p := fun w => decide (w.pointerIds ≠ ∅)))
    rw [List.map_map] at hsub
    have hmaps : s.windows.map (frameFields ∘ (fun w =>
        { w with pointerIds := w.pointerIds \
          ((w.pilferedPointerIds \ s.allPilferedPointerIds) ∪
           (s.allPilferedPointerIds \ w.pilferedPointerIds)) })) =
        s.windows.map frameFields :=
      List.map_congr_left (fun a _ => rfl)
    rw [hmaps] at hsub
    exact hsub

theorem isSlipperyGo_true_iff (l : List TouchedWindow) :
    isSlipperyGo l true = true ↔ ∀ w ∈ l, Flag.FOREGROUND ∉ w.targetFlags := by
  induction l with
  | nil => simp [TouchState.isSlipperyGo]
  | cons w ws ih =>
    by_cases hfg : Flag.FOREGROUND ∈ w.targetFlags
    · simp [TouchState.isSlipperyGo, hfg]
    · simp [TouchState.isSlipperyGo, hfg, ih]

theorem isSlipperyGo_false_iff (l : List TouchedWindow) :
    isSlipperyGo l false = true ↔
      ((l.filter (fun w => decide (Flag.FOREGROUND ∈ w.targetFlags))).length = 1 ∧
        ∀ w ∈ l, Flag.FOREGROUND ∈ w.targetFlags → w.windowHandle.slippery = true) := by
  induction l with
  | nil => simp [TouchState.isSlipperyGo]
  | cons w ws ih =>
    by_cases hfg : Flag.FOREGROUND ∈ w.targetFlags
    · by_cases hsl : w.windowHandle.slippery = true
      · have hgo : isSlipperyGo (w :: ws) false = isSlipperyGo ws true := by
          simp [TouchState.isSlipperyGo, hfg, hsl]
        rw [hgo, isSlipperyGo_true_iff]
        constructor
        · intro h
          have hfil : ws.filter (fun w => decide (Flag.FOREGROUND ∈ w.targetFlags)) = [] := by
            rw [List.filter_eq_nil_iff]
            intro u hu
            simpa using h u hu
          refine ⟨by simp [List.filter_cons, hfg, hfil], ?_⟩
          intro u hu hufg
          rcases List.mem_cons.mp hu with rfl | hu
          · exact hsl
          · exact absurd hufg (h u hu)
        · rintro ⟨hlen, _⟩
          intro u hu hufg
          have hlen' : (ws.filter (fun w =>
              decide (Flag.FOREGROUND ∈ w.targetFlags))).length = 0 := by
            rw [List.filter_cons, if_pos (by simpa using hfg)] at hlen
            simp only [List.length_cons] at hlen
            omega
          have hmem : u ∈ ws.filter (fun w => decide (Flag.FOREGROUND ∈ w.targetFlags)) :=
            List.mem_filter.mpr ⟨hu, by simpa using hufg⟩
          rw [List.length_eq_zero] at hlen'
          simp [hlen'] at hmem
      · have hgo : isSlipperyGo (w :: ws) false = false := by
          simp [TouchState.isSlipperyGo, hfg, hsl]
        rw [hgo]
        simp only [Bool.false_eq_true, false_iff, not_and]
        intro _ hall
        exact hsl (hall w (List.mem_cons_self w ws) hfg)
    · have hgo : isSlipperyGo (w :: ws) false = isSlipperyGo ws false := by
        simp [TouchState.isSlipperyGo, hfg]
      rw [hgo, ih]
      constructor
      · rintro ⟨hlen, hall⟩
        refine ⟨by simpa [List.filter_cons, hfg] using hlen, ?_⟩
        intro u hu hufg
        rcases List.mem_cons.mp hu with rfl | hu
        · exact absurd hufg hfg
        · exact hall u hu hufg
      · rintro ⟨hlen, hall⟩
        exact ⟨by simpa [List.filter_cons, hfg] using hlen,
          fun u hu hufg => hall u (List.mem_cons_of_mem w hu) hufg⟩

/-- C5: `isSlippery` returns true exactly when there is exactly one entry
with the FOREGROUND flag and every FOREGROUND entry (hence that unique one)
has a slippery-capable window; in particular it is false for zero or for
two or more FOREGROUND entries, and for a unique non-slippery one. -/
theorem claimC5_isSlippery :
    ∀ s : TouchState, s.isSlippery = true ↔
      ((s.windows.filter (fun w => decide (Flag.FOREGROUND ∈ w.targetFlags))).length = 1 ∧
        ∀ w ∈ s.windows, Flag.FOREGROUND ∈ w.targetFlags → w.windowHandle.slippery = true) :=
  fun s => isSlipperyGo_false_iff s.windows

/-- C5 witness: a state with exactly one foreground, slippery-capable entry
among two entries is slippery. -/
theorem claimC5_witness :
    TouchState.isSlippery ⟨1, 0, [⟨whS, {FOREGROUND}, {0}, ∅, ∅, none⟩,
      ⟨whB, ∅, {1}, ∅, ∅, none⟩]⟩ = true :=
  (claimC5_isSlippery ⟨1, 0, [⟨whS, {FOREGROUND}, {0}, ∅, ∅, none⟩,
      ⟨whB, ∅, {1}, ∅, ∅, none⟩]⟩).mpr ⟨by decide, by decide⟩

/-- C7: `getTouchedWindow` returns the first entry whose handle identity
matches; when no entry matches, it takes the fatal branch, embedded here as
the `Except.error` value carrying the diagnostic that names the missing
window — so under the precondition that a match exists, the fatal branch is
unreachable. -/
theorem claimC7_getTouchedWindow :
    ∀ (s : TouchState) (wh : WindowInfoHandle),
      (∀ (pre : List TouchedWindow) (w : TouchedWindow) (post : List TouchedWindow),
        s.windows = pre ++ w :: post → (∀ u ∈ pre, u.windowHandle ≠ wh) →
        w.windowHandle = wh → s.getTouchedWindow wh = Except.ok w) ∧
      ((∀ w ∈ s.windows, w.windowHandle ≠ wh) →
        s.getTouchedWindow wh = Except.error ("Could not find " ++ wh.name)) := by
  intro s wh
  constructor
  · intro pre w post hdec hpre hw
    unfold TouchState.getTouchedWindow
    rw [hdec, find?_first_match wh pre w post hpre hw]
  · intro h
    unfold TouchState.getTouchedWindow
    have hnone : s.windows.find? (fun u => decide (u.windowHandle = wh)) = none := by
      rw [List.find?_eq_none]
      intro u hu
      simpa using h u hu
    rw [hnone]

/-- C7 witness: a present lookup returns the matching entry, an absent
lookup returns the fatal diagnostic naming the window. -/
theorem claimC7_witness :
    (⟨1, 0, [⟨whB, ∅, {0}, ∅, ∅, none⟩, ⟨whA, ∅, {1}, ∅, ∅, none⟩]⟩ :
        TouchState).getTouchedWindow whA = Except.ok ⟨whA, ∅, {1}, ∅, ∅, none⟩ ∧
    (⟨1, 0, [⟨whB, ∅, {0}, ∅, ∅, none⟩]⟩ : TouchState).getTouchedWindow whA =
      Except.error ("Could not find " ++ whA.name) :=
  ⟨(claimC7_getTouchedWindow ⟨1, 0, [⟨whB, ∅, {0}, ∅, ∅, none⟩,
      ⟨whA, ∅, {1}, ∅, ∅, none⟩]⟩ whA).1 [⟨whB, ∅, {0}, ∅, ∅, none⟩]
      ⟨whA, ∅, {1}, ∅, ∅, none⟩ [] (by decide) (by decide) (by decide),
   (claimC7_getTouchedWindow ⟨1, 0, [⟨whB, ∅, {0}, ∅, ∅, none⟩]⟩ whA).2 (by decide)⟩

/-- C8: `filterNonAsIsTouchWindows` keeps, in order, exactly the entries
whose flags contain AS_IS or SLIPPERY_ENTER; each survivor's dispatch-mode
subset becomes exactly AS_IS while the bits outside the mode mask are
preserved (and no other field changes); instantiated on the spec's
two-window scenario. -/
theorem claimC8_filterNonAsIs :
    (∀ s : TouchState,
      (s.filterNonAsIsTouchWindows).windows =
        (s.windows.filter (fun w => decide (Flag.DISPATCH_AS_IS ∈ w.targetFlags ∨
            Flag.DISPATCH_AS_SLIPPERY_ENTER ∈ w.targetFlags))).map
          (fun w => { w with targetFlags :=
            (w.targetFlags \ DISPATCH_MASK) ∪ {Flag.DISPATCH_AS_IS} })) ∧
    (∀ fl : Finset Flag,
      ((fl \ DISPATCH_MASK) ∪ {Flag.DISPATCH_AS_IS}) ∩ DISPATCH_MASK =
        {Flag.DISPATCH_AS_IS} ∧
      ((fl \ DISPATCH_MASK) ∪ {Flag.DISPATCH_AS_IS}) \ DISPATCH_MASK =
        fl \ DISPATCH_MASK) ∧
    ((⟨1, 0, [⟨whA, {FOREGROUND, DISPATCH_AS_IS}, {0}, ∅, ∅, none⟩,
        ⟨whB, {DISPATCH_AS_OUTSIDE}, {0}, ∅, ∅, none⟩]⟩ :
      TouchState).filterNonAsIsTouchWindows).windows =
      [⟨whA, {FOREGROUND, DISPATCH_AS_IS}, {0}, ∅, ∅, none⟩] := by
  refine ⟨fun s => filterNonAsIsTouchWindowsGo_eq s.windows, fun fl => ⟨?_, ?_⟩, by decide⟩
  · ext x
    constructor
    · intro hx
      rcases Finset.mem_inter.mp hx with ⟨hx1, hx2⟩
      rcases Finset.mem_union.mp hx1 with hx1 | hx1
      · exact absurd hx2 (Finset.mem_sdiff.mp hx1).2
      · exact hx1
    · intro hx
      rw [Finset.mem_singleton] at hx
      subst hx
      exact Finset.mem_inter.mpr
        ⟨Finset.mem_union_right _ (Finset.mem_singleton_self _), by decide⟩
  · ext x
    simp only [Finset.mem_sdiff, Finset.mem_union, Finset.mem_singleton]
    constructor
    · rintro ⟨h1 | h1, h2⟩
      · exact ⟨h1.1, h2⟩
      · subst h1
        exact absurd (by decide : Flag.DISPATCH_AS_IS ∈ DISPATCH_MASK) h2
    · intro h
      exact ⟨Or.inl h, h.2⟩

end TouchStateModel
